import Mathlib

/-!
Shallow embedding of the husky repository's two widgets:
* the edit-toolbar component (src/unnamed/part_000), and
* the auto-complete component (src/husky_components/auto-complete/main.js),
together with proofs about the claims of the specification.

JavaScript objects are modelled as Lean structures; the `this.items`
associative array is modelled as an association list with JS
property-assignment semantics; string-or-absent JS fields are `Option String`
(`none` = `undefined`); JS truthiness of such fields is `strTruthy`.
Operations that can throw a `TypeError` (reading a field of `undefined`)
return `Option` results, `none` marking the thrown exception.
-/

/-! ## JS value primitives -/

/-- JS falsiness of a string-or-undefined value: `undefined`, `null` and the
empty string are falsy. -/
def strFalsy : Option String → Bool
  | none => true
  | some s => s == ""

/-- JS truthiness of a string-or-undefined value. -/
def strTruthy (o : Option String) : Bool := !(strFalsy o)

/-- JS string coercion of a string-or-undefined value, as it happens in
string concatenation: `undefined` prints as `"undefined"`. -/
def jsStr : Option String → String
  | none => "undefined"
  | some s => s

/-! ## DOM class-list model

The sandbox DOM facility delegates to jQuery (see the adapter in
src/unnamed/part_000 lines 39-45).  Modelled from the spec: the DOM library
is an opaque external collaborator (spec section 1); `addClass` adds each
whitespace-separated token not already present, `removeClass` removes a
token, and the sandbox-specific `prependClass` inserts a token in front. -/

/-- jQuery `addClass` with a single class token: append if absent. -/
def addCls (l : List String) (c : String) : List String :=
  if c ∈ l then l else l ++ [c]

/-- Split a jQuery class string into its non-empty tokens. -/
def splitCls (s : String) : List String :=
  (s.splitOn " ").filter (fun t => t ≠ "")

/-- jQuery `addClass` with a (possibly multi-token) class string. -/
def addClsStr (l : List String) (s : String) : List String :=
  (splitCls s).foldl addCls l

/-- jQuery `removeClass` with a single class token: remove all occurrences. -/
def removeCls (l : List String) (c : String) : List String :=
  l.filter (fun t => t ≠ c)

/-- Modelled from the spec: the sandbox DOM facility's `prependClass`
(not part of the sources) inserts a class token at the front when absent. -/
def prependCls (l : List String) (c : String) : List String :=
  if c ∈ l then l else c :: l

/-! ## Edit-toolbar data model (src/unnamed/part_000 lines 108-126)

A toolbar item.  The one-level nested `items` arrays of dropdown children
are kept alongside (`DItem` below) for render input; inside the stored item
only the presence and length of its `items` array are ever read again
(`selectItem`'s guard), recorded here as `itemsLen`. -/

structure Item where
  id : Option String := none
  title : Option String := none
  icon : Option String := none
  disabledIcon : Option String := none
  iconSize : Option String := none
  typ : Option String := none
  cls : Option String := none
  group : Option String := none
  disabled : Bool := false
  loading : Bool := false
  hasCallback : Bool := false
  divider : Bool := false
  parentId : Option String := none
  itemsLen : Option Nat := none
  deriving Repr, DecidableEq

/-- The guard `item.items && item.items.length > 0` of `selectItem`. -/
def Item.hasSubitems (it : Item) : Bool :=
  match it.itemsLen with
  | some n => decide (0 < n)
  | none => false

/-- Render input: a top-level data item together with its `items` array of
dropdown children (`none` when the `items` field is absent). -/
structure DItem where
  base : Item
  children : Option (List Item) := none

/-- Property read `obj[k]` on a JS object modelled as an association list. -/
def getProp {α : Type} : List (String × α) → String → Option α
  | [], _ => none
  | (k, v) :: t, q => if k = q then some v else getProp t q

/-- The keys of a JS object modelled as an association list. -/
def keysOf {α : Type} (m : List (String × α)) : List String := m.map Prod.fst

/-- Property assignment `obj[k] = v`: overwrite when present,
append otherwise. -/
def setProp {α : Type} (m : List (String × α)) (k : String) (v : α) :
    List (String × α) :=
  if (getProp m k).isSome then
    m.map (fun p => if p.1 = k then (k, v) else p)
  else
    m ++ [(k, v)]

/-- In-place update of a property (a jQuery mutation of the element stored
under a data-id); a missing key is a no-op, as jQuery is on an empty set. -/
def updProp {α : Type} (m : List (String × α)) (k : String) (f : α → α) :
    List (String × α) :=
  m.map (fun p => if p.1 = k then (p.1, f p.2) else p)

/-- The `this.items` associative array, keyed by item id. -/
abbrev ItemsMap := List (String × Item)

theorem getProp_eq_none_iff {α : Type} (m : List (String × α)) (q : String) :
    getProp m q = none ↔ q ∉ keysOf m := by
  induction m with
  | nil => simp [getProp, keysOf]
  | cons p t ih =>
    obtain ⟨k, v⟩ := p
    simp only [getProp, keysOf, List.map_cons, List.mem_cons]
    by_cases h : k = q
    · subst h
      simp
    · rw [if_neg h, ih]
      unfold keysOf
      constructor
      · intro hn hor
        rcases hor with hq | hm
        · exact h hq.symm
        · exact hn hm
      · intro hn hm
        exact hn (Or.inr hm)

theorem setProp_of_getProp_none {α : Type} {m : List (String × α)} {k : String}
    (v : α) (h : getProp m k = none) : setProp m k v = m ++ [(k, v)] := by
  simp [setProp, h]

theorem getProp_append_single {α : Type} {m : List (String × α)} {k : String}
    (v : α) (h : getProp m k = none) : getProp (m ++ [(k, v)]) k = some v := by
  induction m with
  | nil => simp [getProp]
  | cons p t ih =>
    obtain ⟨k', v'⟩ := p
    simp only [getProp] at h ⊢
    by_cases hk : k' = k
    · simp [hk] at h
    · rw [if_neg hk] at h ⊢
      exact ih h

theorem getProp_overwrite {α : Type} (m : List (String × α)) (k : String)
    (v : α) (h : (getProp m k).isSome) :
    getProp (m.map (fun p => if p.1 = k then (k, v) else p)) k = some v := by
  induction m with
  | nil => simp [getProp] at h
  | cons p t ih =>
    obtain ⟨k', v'⟩ := p
    rw [List.map_cons]
    by_cases hk : k' = k
    · subst hk
      have hhead :
          (if ((k', v') : String × α).1 = k' then (k', v) else (k', v')) =
            (k', v) := by
        simp
      rw [hhead]
      simp [getProp]
    · have hhead :
          (if ((k', v') : String × α).1 = k then (k, v) else (k', v')) =
            (k', v') := by
        simp [hk]
      rw [hhead]
      simp only [getProp, if_neg hk] at h ⊢
      exact ih h

theorem getProp_setProp {α : Type} (m : List (String × α)) (k : String) (v : α) :
    getProp (setProp m k v) k = some v := by
  unfold setProp
  by_cases h : (getProp m k).isSome
  · rw [if_pos h]
    exact getProp_overwrite m k v h
  · rw [if_neg h]
    exact getProp_append_single v (Option.not_isSome_iff_eq_none.mp h)

theorem getProp_updProp {α : Type} (m : List (String × α)) (k : String)
    (f : α → α) : getProp (updProp m k f) k = (getProp m k).map f := by
  induction m with
  | nil => simp [getProp, updProp]
  | cons p t ih =>
    obtain ⟨k', v'⟩ := p
    unfold updProp at ih ⊢
    rw [List.map_cons]
    by_cases hk : k' = k
    · subst hk
      have hhead :
          (if ((k', v') : String × α).1 = k' then (((k', v') : String × α).1, f ((k', v') : String × α).2) else (k', v')) =
            (k', f v') := by
        simp
      rw [hhead]
      simp [getProp]
    · have hhead :
          (if ((k', v') : String × α).1 = k then (((k', v') : String × α).1, f ((k', v') : String × α).2) else (k', v')) =
            (k', v') := by
        simp [hk]
      rw [hhead]
      simp only [getProp, if_neg hk]
      exact ih

theorem getProp_updProp_ne {α : Type} (m : List (String × α)) (k q : String)
    (f : α → α) (hne : k ≠ q) : getProp (updProp m k f) q = getProp m q := by
  induction m with
  | nil => simp [getProp, updProp]
  | cons p t ih =>
    obtain ⟨k', v'⟩ := p
    unfold updProp at ih ⊢
    rw [List.map_cons]
    by_cases hk : k' = k
    · subst hk
      have hhead :
          (if ((k', v') : String × α).1 = k' then (((k', v') : String × α).1, f ((k', v') : String × α).2) else (k', v')) =
            (k', f v') := by
        simp
      rw [hhead]
      simp only [getProp, if_neg hne]
      exact ih
    · have hhead :
          (if ((k', v') : String × α).1 = k then (((k', v') : String × α).1, f ((k', v') : String × α).2) else (k', v')) =
            (k', v') := by
        simp [hk]
      rw [hhead]
      simp only [getProp]
      by_cases hq : k' = q
      · rw [if_pos hq, if_pos hq]
      · rw [if_neg hq, if_neg hq]
        exact ih

/-! ## Fresh id generation (src/unnamed/part_000 lines 468-479)

Modelled from the spec: `this.sandbox.util.uniqueId()` is not part of the
sources; the spec only demands auto-generated ids ("auto-generated when
absent or colliding").  It is modelled as a counter-indexed injective
family of non-empty id strings. -/

/-- Modelled from the spec: the `n`-th id produced by the sandbox's
`uniqueId` counter. -/
def uniqueIdStr (n : Nat) : String :=
  "uid" ++ String.mk (List.replicate n 'x')

theorem uniqueIdStr_inj {a b : Nat} (h : uniqueIdStr a = uniqueIdStr b) :
    a = b := by
  unfold uniqueIdStr at h
  rw [String.congr_append, String.congr_append] at h
  have hd := congrArg String.data h
  simp only [String.mk] at hd
  have := List.append_cancel_left hd
  have hlen := congrArg List.length this
  simpa using hlen

/-- The do-while loop of `checkItemId`: draw ids from the counter until one
is free in `this.items`; the fuel argument bounds the number of draws. -/
def genIdAux : Nat → ItemsMap → Nat → String × Nat
  | 0, _, c => (uniqueIdStr c, c + 1)
  | fuel + 1, m, c =>
    if (getProp m (uniqueIdStr c)).isSome then genIdAux fuel m (c + 1)
    else (uniqueIdStr c, c + 1)

/-- Draw a fresh id; `m.length + 1` draws always suffice. -/
def genId (m : ItemsMap) (c : Nat) : String × Nat :=
  genIdAux (m.length + 1) m c

theorem genIdAux_fresh :
    ∀ (fuel : Nat) (m : ItemsMap) (c : Nat),
      (∃ k, k < fuel ∧ getProp m (uniqueIdStr (c + k)) = none) →
      getProp m (genIdAux fuel m c).1 = none := by
  intro fuel
  induction fuel with
  | zero =>
    rintro m c ⟨k, hk, _⟩
    omega
  | succ n ih =>
    rintro m c ⟨k, hk, hnone⟩
    by_cases h : (getProp m (uniqueIdStr c)).isSome
    · simp only [genIdAux, h, if_true]
      apply ih
      have hk0 : k ≠ 0 := by
        intro h0
        subst h0
        simp only [Nat.add_zero] at hnone
        rw [hnone] at h
        simp at h
      refine ⟨k - 1, by omega, ?_⟩
      have : c + 1 + (k - 1) = c + k := by omega
      rw [this]
      exact hnone
    · simp only [genIdAux, h, if_false]
      simpa using h

theorem length_keysOf (m : ItemsMap) : (keysOf m).length = m.length := by
  simp [keysOf]

theorem exists_fresh_id (m : ItemsMap) (c : Nat) :
    ∃ k, k < m.length + 1 ∧ getProp m (uniqueIdStr (c + k)) = none := by
  by_contra hcon
  push_neg at hcon
  have hmem : ∀ k ∈ List.range (m.length + 1), uniqueIdStr (c + k) ∈ keysOf m := by
    intro k hk
    have hne := hcon k (List.mem_range.mp hk)
    by_contra hnm
    exact hne ((getProp_eq_none_iff m _).mpr hnm)
  have hinj : Function.Injective (fun k => uniqueIdStr (c + k)) := by
    intro a b hab
    have := uniqueIdStr_inj hab
    omega
  have hnd : ((List.range (m.length + 1)).map (fun k => uniqueIdStr (c + k))).Nodup :=
    (List.nodup_range _).map hinj
  have hsub : ((List.range (m.length + 1)).map (fun k => uniqueIdStr (c + k))) ⊆ keysOf m := by
    intro x hx
    obtain ⟨k, hk, rfl⟩ := List.mem_map.mp hx
    exact hmem k hk
  have hle := (List.subperm_of_subset hnd hsub).length_le
  rw [List.length_map, List.length_range, length_keysOf] at hle
  omega

theorem genId_fresh (m : ItemsMap) (c : Nat) :
    getProp m (genId m c).1 = none :=
  genIdAux_fresh (m.length + 1) m c (exists_fresh_id m c)

/-! ## Edit-toolbar DOM and state -/

/-- The DOM element rendered for one toolbar item (the `li` carrying
`data-id`, with its icon span, title span, link and loader children). -/
structure Dom where
  classes : List String := []
  iconClasses : List String := []
  titleHtml : String := ""
  linkHidden : Bool := false
  loaders : Nat := 0
  deriving Repr, DecidableEq

/-- The state of one edit-toolbar instance: its `instanceName` option,
`this.items`, the rendered elements keyed by `data-id`, and the sandbox
`uniqueId` counter (modelled from the spec, see `uniqueIdStr`). -/
structure TState where
  inst : String := ""
  items : ItemsMap := []
  dom : List (String × Dom) := []
  counter : Nat := 0
  deriving Repr, DecidableEq

/-- Source `createEventName` (src/unnamed/part_000 lines 492-494): the normalized
event name `husky.edit-toolbar.<instanceName>.<postfix>`, the instance
segment being dropped when `instanceName` is falsy. -/
def createEventName (inst : String) (sfx : String) : String :=
  "husky.edit-toolbar." ++ (if inst = "" then "" else inst ++ ".") ++ sfx

/-- Source `createIconClass` (lines 426-432): `icon-` followed by the item's icon,
or its disabled icon when present and the disabled variant is requested. -/
def createIconClass (it : Item) (enabled : Bool) : String :=
  "icon-" ++
    (if enabled then jsStr it.icon
     else if strTruthy it.disabledIcon then jsStr it.disabledIcon
     else jsStr it.icon)

/-- Source `createIconSupportClass` (lines 401-419): the full class string of the
icon span: icon class, `icon`, and the icon size when set; empty without
an icon. -/
def createIconSupportClass (it : Item) (enabled : Bool) : String :=
  if strTruthy it.icon then
    String.intercalate " "
      ([createIconClass it enabled, "icon"] ++
        (if strTruthy it.iconSize then [jsStr it.iconSize] else []))
  else ""

/-- Source `checkItemId` (lines 468-479): generate a fresh id when the item's id
is falsy or already taken in `this.items`.  (The source also normalizes a
missing `disabled` flag to `false`; `disabled` is already a `Bool` here.) -/
def checkItemId (m : ItemsMap) (c : Nat) (it : Item) : Item × Nat :=
  if strFalsy it.id || (getProp m (jsStr it.id)).isSome then
    let r := genId m c
    ({it with id := some r.1}, r.2)
  else (it, c)

/-- Source `toggleEnabled` (lines 221-258): flip the stored item's `disabled`
flag, restore a pending loading state, optionally add the highlight
animation class, and swap the `disabled` class and the icon class on the
rendered element.  `highlight` is the JS condition `highlight !== false`.
Reading a missing item's fields would throw, hence the `Option`. -/
def toggleEnabled (s : TState) (enabled : Bool) (id : String)
    (highlight : Bool) : Option TState :=
  match getProp s.items id with
  | none => none
  | some item =>
    let enabledIconClass := createIconClass item true
    let disabledIconClass := createIconClass item false
    let item2 := {item with disabled := !enabled, loading := false}
    let s1 := {s with items := setProp s.items id item2}
    let loadingRestore : Dom → Dom :=
      fun d => {d with loaders := 0, linkHidden := false}
    let highlightAdd : Dom → Dom :=
      fun d => {d with classes := addCls d.classes "highlight-animation"}
    let classSwap : Dom → Dom := fun d =>
      let d1 :=
        if enabled then {d with classes := removeCls d.classes "disabled"}
        else {d with classes := addCls d.classes "disabled"}
      if "icon" ∈ d1.iconClasses then
        (if enabled then
          {d1 with iconClasses :=
            prependCls (removeCls d1.iconClasses disabledIconClass) enabledIconClass}
         else
          {d1 with iconClasses :=
            prependCls (removeCls d1.iconClasses enabledIconClass) disabledIconClass})
      else d1
    let s2 :=
      if item.loading then {s1 with dom := updProp s1.dom id loadingRestore}
      else s1
    let s3 :=
      if highlight then {s2 with dom := updProp s2.dom id highlightAdd}
      else s2
    some {s3 with dom := updProp s3.dom id classSwap}

/-- Source `itemLoading` (lines 261-285): a no-op when the item is already
loading; otherwise set the flag, hide the item link and append a loader
element (the started loader sub-component itself is outside the model). -/
def itemLoading (s : TState) (id : String) : Option TState :=
  match getProp s.items id with
  | none => none
  | some item =>
    if item.loading then some s
    else
      let showLoader : Dom → Dom :=
        fun d => {d with linkHidden := true, loaders := d.loaders + 1}
      some {s with
        items := setProp s.items id {item with loading := true},
        dom := updProp s.dom id showLoader}

/-- The custom events subscribed to in `bindCustomEvents` (lines 208-218). -/
inductive TbEvent : Type where
  | itemDisable (id : String) (highlight : Bool)
  | itemEnable (id : String) (highlight : Bool)
  | itemLoading (id : String)
  deriving Repr, DecidableEq

/-- Source `bindCustomEvents` (lines 208-218): dispatch one received custom event
to the corresponding handler. -/
def dispatch (s : TState) : TbEvent → Option TState
  | .itemDisable id hl => toggleEnabled s false id hl
  | .itemEnable id hl => toggleEnabled s true id hl
  | .itemLoading id => itemLoading s id

/-- The outcome of a click on an item: nothing, the item's callback, or the
`item.select` event emitted with the item as payload. -/
inductive SelAction : Type where
  | noAction
  | callbackInvoked
  | selectEmitted (eventName : String) (payload : Item)
  deriving Repr, DecidableEq

/-- Source `changeMainListItem` (lines 379-393): on the parent list element, add
the child's icon support class to the icon span when the child has an icon
(the preceding `removeClass` with an empty string removes nothing), and
replace the title span's content when the child has a title. -/
def changeMainListItem (s : TState) (pid : String) (item : Item) : TState :=
  let upd : Dom → Dom := fun d =>
    let d1 :=
      if strTruthy item.icon then
        {d with iconClasses :=
          addClsStr d.iconClasses (createIconSupportClass item (!item.disabled))}
      else d
    if strTruthy item.title then {d1 with titleHtml := jsStr item.title}
    else d1
  {s with dom := updProp s.dom pid upd}

/-- Source `triggerSelectEvent` (lines 354-372): when the item has a parent of
type `select`, update the parent's main list element; then invoke the
callback when set, and emit the namespaced `item.select` event otherwise
(`emitEvent`, lines 482-489).  A dangling parent id would throw. -/
def triggerSelectEvent (s : TState) (item : Item) :
    Option (TState × SelAction) :=
  let act : SelAction :=
    if item.hasCallback then .callbackInvoked
    else .selectEmitted (createEventName s.inst "item.select") item
  if strTruthy item.parentId then
    match getProp s.items (jsStr item.parentId) with
    | none => none
    | some parentItem =>
      if parentItem.typ = some "select" then
        some (changeMainListItem s (jsStr item.parentId) item, act)
      else some (s, act)
  else some (s, act)

/-- Source `selectItem` (lines 332-347): looked up by the clicked element's
`data-id`; items with subitems or in loading state are ignored, disabled
items do nothing, otherwise `triggerSelectEvent` runs. -/
def selectItem (s : TState) (clicked : String) :
    Option (TState × SelAction) :=
  match getProp s.items clicked with
  | none => none
  | some item =>
    if item.hasSubitems || item.loading then some (s, .noAction)
    else if !item.disabled then triggerSelectEvent s item
    else some (s, .noAction)

/-! ## Edit-toolbar rendering (src/unnamed/part_000 lines 439-461, 529-597) -/

/-- One step of the `createDropdownMenu` loop (lines 443-460): skip
dividers; otherwise set the child's `parentId`, make its id unique, store
it and append its list element.  The accumulated `classString` is never
reset in the source, so once a disabled child is met every following child
is rendered with the `disabled` class. -/
def renderChild (parentId : Option String)
    (acc : ItemsMap × List (String × Dom) × Nat × List String)
    (child : Item) : ItemsMap × List (String × Dom) × Nat × List String :=
  let (m, dm, c, clsAcc) := acc
  if child.divider then (m, dm, c, clsAcc)
  else
    let ch1 := {child with parentId := parentId}
    let r := checkItemId m c ch1
    let ch2 := r.1
    let m2 := setProp m (jsStr ch2.id) ch2
    let clsAcc2 := if ch2.disabled then ["disabled"] else clsAcc
    let dm2 := dm ++ [(jsStr ch2.id,
      { classes := clsAcc2, iconClasses := [],
        titleHtml := jsStr ch2.title, linkHidden := false, loaders := 0 })]
    (m2, dm2, r.2, clsAcc2)

/-- One step of the `render` loop (lines 548-593): make the item's id
unique, store it, render its list element and, when an `items` array is
present, its dropdown menu. -/
def renderItem (acc : ItemsMap × List (String × Dom) × Nat) (d : DItem) :
    ItemsMap × List (String × Dom) × Nat :=
  let (m, dm, c) := acc
  let it0 := {d.base with itemsLen := d.children.map List.length}
  let r := checkItemId m c it0
  let it1 := r.1
  let m1 := setProp m (jsStr it1.id) it1
  let classes := ["edit-toolbar-item"] ++
    (if strTruthy it1.cls then [jsStr it1.cls] else []) ++
    (if it1.disabled then ["disabled"] else [])
  let dm1 := dm ++ [(jsStr it1.id,
    { classes := classes,
      iconClasses := splitCls (createIconSupportClass it1 (!it1.disabled)),
      titleHtml := if strTruthy it1.title then jsStr it1.title else "",
      linkHidden := false, loaders := 0 })]
  match d.children with
  | none => (m1, dm1, r.2)
  | some chs =>
    let r2 := chs.foldl (renderChild it1.id) (m1, dm1, r.2, [])
    (r2.1, r2.2.1, r2.2.2.1)

/-- Source `render` (lines 529-597): reset `this.items`, then process the data
items in order.  (The skeleton markup, left/right grouping and the final
`initialized` event carry no item state and are not tracked.) -/
def render (inst : String) (data : List DItem) (c0 : Nat) : TState :=
  let r := data.foldl renderItem (([] : ItemsMap), ([] : List (String × Dom)), c0)
  { inst := inst, items := r.1, dom := r.2.1, counter := r.2.2 }

/-! ## Edit-toolbar initialization (src/unnamed/part_000 lines 504-523) -/

/-- Modelled from the spec: the outcome of the single asynchronous data
fetch done through `sandbox.util.load` (spec sections 5 and 7), passed to
the success or failure callback. -/
inductive FetchOutcome : Type where
  | ok (data : List DItem)
  | err (msg : String)

/-- What `initialize` leaves behind: the component state (unchanged when no
render ran) and which logger lines were produced. -/
structure InitResult where
  state : Option TState
  loggedError : Bool
  loggedNoData : Bool
  deriving DecidableEq

/-- Source `initialize` (lines 504-523): with a truthy `url` option the fetched
data is rendered on success while a failure is only logged; without a url,
a truthy `data` option (its default is `[]`, which is truthy in JS) is
rendered, and otherwise the missing data is logged.  The function is
total: no branch throws. -/
def initToolbar (inst : String) (url : Option String)
    (dataVal : Option (List DItem)) (prev : Option TState)
    (fetch : FetchOutcome) (c0 : Nat) : InitResult :=
  if strTruthy url then
    match fetch with
    | .ok d => { state := some (render inst d c0), loggedError := false, loggedNoData := false }
    | .err _ => { state := prev, loggedError := true, loggedNoData := false }
  else
    match dataVal with
    | some d => { state := some (render inst d c0), loggedError := false, loggedNoData := false }
    | none => { state := prev, loggedError := false, loggedNoData := true }

/-! ## Auto-complete model (src/husky_components/auto-complete/main.js) -/

/-- A suggestion datum as delivered by the typeahead (its `name` is the
configured value key, its `id` the stored data id). -/
structure ACDatum where
  name : String
  id : String
  deriving Repr, DecidableEq

/-- The auto-complete options used by the modelled behaviour. -/
structure ACOptions where
  noNewValues : Bool := false
  successClass : String := "husky-auto-complete-success"
  failClass : String := "husky-auto-complete-error"
  value : Option ACDatum := none
  deriving Repr, DecidableEq

/-- The transient auto-complete state: the input field's value and
`data-id` attribute, the `matched` flag, the `matches` list and the
element's class list. -/
structure ACState where
  fieldValue : String := ""
  fieldId : Option String := none
  matched : Bool := false
  matchList : List ACDatum := []
  elClasses : List String := []
  deriving Repr, DecidableEq

/-- Source `getEvent` (main.js lines 48-50): the component prefix plus the event
suffix.  The instance's `instanceName` option is not used, although it is
passed here to show exactly that. -/
def acGetEvent (_instanceName : String) (append : String) : String :=
  "husky.auto-complete." ++ append

/-- Source `getClosestMatch` (lines 182-187): the first match, or null. -/
def getClosestMatch (s : ACState) : Option ACDatum :=
  match s.matchList with
  | [] => none
  | m :: _ => some m

/-- Source `getValueFieldValue` (lines 189-191): the trimmed field value. -/
def getValueFieldValue (s : ACState) : String := s.fieldValue.trim

/-- Source `isMatchedExactly` (lines 205-214), evaluated faithfully: the source
guards with `this.getClosestMatch !== null`, comparing the function itself
with null (always true), so with `matched` set and no matches, reading
`.name` of the null closest match throws (`none` here). -/
def isMatchedExactlyEval (s : ACState) : Option Bool :=
  if s.matched then
    match getClosestMatch s with
    | none => none
    | some m =>
      some (decide ((getValueFieldValue s).toLower = m.name.toLower))
  else some false

/-- Source `handleBlur` (lines 165-180): with `noNewValues`, snap to the closest
match and add the success class when matched, otherwise add the fail
class; without it, snap only on an exact match and touch no classes. -/
def handleBlur (o : ACOptions) (s : ACState) : Option ACState :=
  if o.noNewValues then
    if s.matched && (getClosestMatch s).isSome then
      match getClosestMatch s with
      | some m =>
        some {s with
          fieldValue := m.name
          fieldId := some m.id
          elClasses := addCls s.elClasses o.successClass}
      | none => none
    else some {s with elClasses := addCls s.elClasses o.failClass}
  else
    match isMatchedExactlyEval s with
    | none => none
    | some true =>
      match getClosestMatch s with
      | some m => some {s with fieldValue := m.name, fieldId := some m.id}
      | none => none
    | some false => some s

/-- The `keydown` handler of `setEvents` (lines 154-158) together with
`setNoState` (lines 230-233): clear the `matched` flag and the match list
and remove the success and fail classes. -/
def keydownHandler (o : ACOptions) (s : ACState) : ACState :=
  {s with
    matched := false
    matchList := []
    elClasses := removeCls (removeCls s.elClasses o.successClass) o.failClass}

/-- The state right after `initialize` and `render` (lines 68-110):
`matched` is initialized to `true` with an empty match list, the field
shows the configured start value, and the element carries the component
class. -/
def acInitState (o : ACOptions) : ACState :=
  { fieldValue := (match o.value with | some v => v.name | none => ""),
    fieldId := o.value.map ACDatum.id,
    matched := true, matchList := [],
    elClasses := ["husky-auto-complete"] }

/-! ## C1: id uniqueness through render -/

/-- The id invariant of `this.items`: keys are pairwise distinct and every
stored item carries its key as its id. -/
def ItemsInv (m : ItemsMap) : Prop :=
  (keysOf m).Nodup ∧ ∀ p ∈ m, p.2.id = some p.1

theorem checkItemId_spec (m : ItemsMap) (c : Nat) (it : Item) :
    ∃ s c2, checkItemId m c it = ({it with id := some s}, c2) ∧
      getProp m s = none := by
  unfold checkItemId
  cases hcond : (strFalsy it.id || (getProp m (jsStr it.id)).isSome) with
  | true =>
    refine ⟨(genId m c).1, (genId m c).2, ?_, genId_fresh m c⟩
    simp [hcond]
  | false =>
    simp only [hcond, Bool.false_eq_true, if_false]
    simp only [Bool.or_eq_false_iff] at hcond
    obtain ⟨hfal, hsome⟩ := hcond
    cases hid : it.id with
    | none => simp [strFalsy, hid] at hfal
    | some s =>
      refine ⟨s, c, ?_, ?_⟩
      · have heta : ({it with id := some s} : Item) = it := by
          rw [← hid]
        rw [heta]
      · have hj : jsStr it.id = s := by simp [jsStr, hid]
        rw [hj] at hsome
        exact Option.not_isSome_iff_eq_none.mp (by simp [hsome])

theorem itemsInv_store {m : ItemsMap} {s : String} {v : Item}
    (hInv : ItemsInv m) (hfresh : getProp m s = none) (hid : v.id = some s) :
    ItemsInv (setProp m s v) := by
  rw [setProp_of_getProp_none v hfresh]
  constructor
  · unfold ItemsInv keysOf at *
    rw [List.map_append, List.nodup_append]
    refine ⟨hInv.1, by simp, ?_⟩
    intro a ha hb
    simp only [List.map_cons, List.map_nil, List.mem_singleton] at hb
    subst hb
    exact ((getProp_eq_none_iff m a).mp hfresh) ha
  · intro p hp
    rcases List.mem_append.mp hp with h1 | h2
    · exact hInv.2 p h1
    · simp only [List.mem_singleton] at h2
      subst h2
      exact hid

theorem itemsInv_checkStore (m : ItemsMap) (c : Nat) (it : Item)
    (hInv : ItemsInv m) :
    ItemsInv (setProp m (jsStr (checkItemId m c it).1.id) (checkItemId m c it).1) := by
  obtain ⟨s, c2, heq, hfresh⟩ := checkItemId_spec m c it
  rw [heq]
  exact itemsInv_store hInv hfresh rfl

theorem renderChild_inv (pid : Option String)
    (acc : ItemsMap × List (String × Dom) × Nat × List String) (child : Item)
    (h : ItemsInv acc.1) : ItemsInv (renderChild pid acc child).1 := by
  obtain ⟨m, dm, c, clsAcc⟩ := acc
  show ItemsInv (renderChild pid (m, dm, c, clsAcc) child).1
  simp only [renderChild]
  by_cases hd : child.divider = true
  · rw [if_pos hd]
    exact h
  · rw [if_neg hd]
    exact itemsInv_checkStore m c {child with parentId := pid} h

theorem foldl_renderChild_inv (pid : Option String) (chs : List Item) :
    ∀ acc, ItemsInv acc.1 → ItemsInv ((chs.foldl (renderChild pid) acc)).1 := by
  induction chs with
  | nil => intro acc h; exact h
  | cons ch t ih =>
    intro acc h
    exact ih _ (renderChild_inv pid acc ch h)

theorem renderItem_inv (acc : ItemsMap × List (String × Dom) × Nat)
    (d : DItem) (h : ItemsInv acc.1) : ItemsInv (renderItem acc d).1 := by
  obtain ⟨m, dm, c⟩ := acc
  show ItemsInv (renderItem (m, dm, c) d).1
  simp only [renderItem]
  cases hch : d.children with
  | none =>
    simp only [hch, Option.map_none']
    exact itemsInv_checkStore m c {d.base with itemsLen := none} h
  | some chs =>
    simp only [hch, Option.map_some']
    exact foldl_renderChild_inv _ chs _
      (itemsInv_checkStore m c {d.base with itemsLen := some chs.length} h)

theorem foldl_renderItem_inv (data : List DItem) :
    ∀ acc, ItemsInv acc.1 → ItemsInv ((data.foldl renderItem acc)).1 := by
  induction data with
  | nil => intro acc h; exact h
  | cons d t ih =>
    intro acc h
    exact ih _ (renderItem_inv acc d h)

/-- C1: after `render`, every item (dropdown children included) is stored
under its possibly regenerated id, and the ids in `this.items` are unique
within the instance: the key list has no duplicates and each stored item's
id equals its key. -/
theorem c1_render_item_ids_unique (inst : String) (data : List DItem) (c0 : Nat) :
    (keysOf (render inst data c0).items).Nodup ∧
      ∀ p ∈ (render inst data c0).items, p.2.id = some p.1 := by
  have h0 : ItemsInv ([] : ItemsMap) := ⟨by simp [keysOf], by simp⟩
  have h := foldl_renderItem_inv data (([] : ItemsMap), ([] : List (String × Dom)), c0) h0
  unfold render
  exact h

/-! ## String append cancellation helpers -/

theorem strAppend_data (a b : String) : (a ++ b).data = a.data ++ b.data := by
  rw [String.congr_append]

theorem strAppend_left_cancel {a b c : String} (h : a ++ b = a ++ c) :
    b = c := by
  have hd : a.data ++ b.data = a.data ++ c.data := by
    rw [← strAppend_data, ← strAppend_data, h]
  have h2 := List.append_cancel_left hd
  obtain ⟨lb⟩ := b
  obtain ⟨lc⟩ := c
  exact congrArg String.mk h2

theorem strAppend_right_cancel {a b c : String} (h : a ++ c = b ++ c) :
    a = b := by
  have hd : a.data ++ c.data = b.data ++ c.data := by
    rw [← strAppend_data, ← strAppend_data, h]
  have h2 := List.append_cancel_right hd
  obtain ⟨la⟩ := a
  obtain ⟨lb⟩ := b
  exact congrArg String.mk h2

/-! ## C5: per-instance event names -/

/-- C5 (counterexample): the auto-complete component's `getEvent` produces
the same event name for two instances with different instance names — its
event names carry no instance segment at all. -/
theorem c5_shared_event_name_counterexample :
    acGetEvent "instanceA" "select" = acGetEvent "instanceB" "select" ∧
      "instanceA" ≠ "instanceB" :=
  ⟨rfl, by decide⟩

/-- C5 (amended): the edit-toolbar's `createEventName` is namespaced per
instance: for a fixed event suffix, different instance names always yield
different event names (the instance name and a separating dot are inserted
between the component prefix and the suffix whenever it is non-empty). -/
theorem c5_createEventName_injective (n1 n2 sfx : String)
    (h : createEventName n1 sfx = createEventName n2 sfx) : n1 = n2 := by
  unfold createEventName at h
  by_cases h1 : n1 = "" <;> by_cases h2 : n2 = ""
  · rw [h1, h2]
  · rw [if_pos h1, if_neg h2] at h
    have hmid := strAppend_left_cancel (strAppend_right_cancel h)
    have : ("" : String).data = (n2 ++ ".").data := by rw [hmid]
    rw [strAppend_data] at this
    have hlen := congrArg List.length this
    simp at hlen
  · rw [if_neg h1, if_pos h2] at h
    have hmid := strAppend_left_cancel (strAppend_right_cancel h)
    have : (n1 ++ "." : String).data = ("" : String).data := by rw [hmid]
    rw [strAppend_data] at this
    have hlen := congrArg List.length this
    simp at hlen
  · rw [if_neg h1, if_neg h2] at h
    have hmid := strAppend_left_cancel (strAppend_right_cancel h)
    exact strAppend_right_cancel hmid

/-- C5 witness: applying the amended theorem at a concrete input. -/
theorem c5_createEventName_injective_witness : ("nav" : String) = "nav" :=
  c5_createEventName_injective "nav" "nav" "item.enable" rfl

/-! ## C6: keystroke reset -/

/-- C6 (counterexample): the keydown handler does not clear the field's
`data-id`: with a selected id stored, it is still there after a keydown. -/
theorem c6_keydown_keeps_data_id_counterexample :
    (keydownHandler {}
        { fieldValue := "ba", fieldId := some "7", matched := true,
          matchList := [⟨"Bar", "7"⟩],
          elClasses := ["husky-auto-complete-success"] }).fieldId = some "7" ∧
      (some "7" : Option String) ≠ none :=
  ⟨rfl, by decide⟩

/-- C6 (amended): on every keystroke the matched flag becomes false, the
match list becomes empty and the success/fail classes are removed, while
the field's value and its `data-id` are left unchanged. -/
theorem c6_keydown_resets_transient_state (o : ACOptions) (s : ACState) :
    (keydownHandler o s).matched = false ∧
    (keydownHandler o s).matchList = [] ∧
    o.successClass ∉ (keydownHandler o s).elClasses ∧
    o.failClass ∉ (keydownHandler o s).elClasses ∧
    (keydownHandler o s).fieldValue = s.fieldValue ∧
    (keydownHandler o s).fieldId = s.fieldId := by
  refine ⟨rfl, rfl, ?_, ?_, rfl, rfl⟩
  · intro hmem
    simp [keydownHandler, removeCls] at hmem
  · intro hmem
    simp [keydownHandler, removeCls] at hmem

/-! ## C8: failed fetch is logged, not propagated -/

/-- C8: initializing with a truthy url and a failing fetch only logs the
error: the component state is left unchanged, no render happens, and no
exception escapes (`initToolbar` is total and returns normally). -/
theorem c8_fetch_failure_logged_not_propagated (inst : String)
    (url : Option String) (dataVal : Option (List DItem))
    (prev : Option TState) (msg : String) (c0 : Nat)
    (h : strTruthy url = true) :
    initToolbar inst url dataVal prev (.err msg) c0 =
      { state := prev, loggedError := true, loggedNoData := false } := by
  simp [initToolbar, h]

/-- C8 witness: a concrete failing fetch. -/
theorem c8_fetch_failure_witness :
    initToolbar "i" (some "/data") none none (.err "boom") 0 =
      { state := none, loggedError := true, loggedNoData := false } :=
  c8_fetch_failure_logged_not_propagated "i" (some "/data") none none "boom" 0
    (by decide)

/-! ## C10: null dereference on blur -/

/-- C10: the claim fails on the code.  Right after initialization the
`matched` flag is `true` while the match list is empty (main.js lines
75-76), and `isMatchedExactly`'s guard compares the `getClosestMatch`
function itself with null (line 207) instead of its result, so on the
first blur with `noNewValues` false the exact-match comparison reads
`.name` of a null closest match and throws. -/
theorem c10_blur_null_dereference :
    (acInitState {noNewValues := false}).matched = true ∧
    (acInitState {noNewValues := false}).matchList = [] ∧
    isMatchedExactlyEval (acInitState {noNewValues := false}) = none ∧
    handleBlur {noNewValues := false} (acInitState {noNewValues := false}) = none := by
  refine ⟨rfl, rfl, by decide, by decide⟩

/-! ## C2: blur behaviour -/

theorem getClosestMatch_mem {s : ACState} {m : ACDatum}
    (h : getClosestMatch s = some m) : m ∈ s.matchList := by
  unfold getClosestMatch at h
  cases hml : s.matchList with
  | nil => rw [hml] at h; simp at h
  | cons a t =>
    rw [hml] at h
    simp only [Option.some.injEq] at h
    subst h
    exact List.mem_cons_self a t

theorem isMatchedExactlyEval_true {s : ACState}
    (h : isMatchedExactlyEval s = some true) :
    ∃ m, getClosestMatch s = some m ∧
      (getValueFieldValue s).toLower = m.name.toLower := by
  unfold isMatchedExactlyEval at h
  by_cases hm : s.matched = true
  · rw [if_pos hm] at h
    cases hgc : getClosestMatch s with
    | none => rw [hgc] at h; simp at h
    | some m =>
      rw [hgc] at h
      simp only [Option.some.injEq, decide_eq_true_eq] at h
      exact ⟨m, rfl, h⟩
  · rw [if_neg hm] at h
    simp at h

/-- C2: on blur, with `noNewValues` set, the field either snaps to the
closest match (value and data-id) and receives the success class — exactly
when the input is matched and a closest match exists — or receives the
fail class; without `noNewValues`, whenever the handler returns, the
element's classes are untouched and the field is snapped to a match (one
whose name equals the trimmed input up to case) only then, being left
unchanged otherwise. -/
theorem c2_handle_blur_states (o : ACOptions) (s : ACState) :
    (o.noNewValues = true →
      (s.matched = true ∧ s.matchList ≠ [] →
        ∃ m, getClosestMatch s = some m ∧
          handleBlur o s = some {s with
            fieldValue := m.name
            fieldId := some m.id
            elClasses := addCls s.elClasses o.successClass}) ∧
      (¬(s.matched = true ∧ s.matchList ≠ []) →
        handleBlur o s =
          some {s with elClasses := addCls s.elClasses o.failClass})) ∧
    (o.noNewValues = false → ∀ s2, handleBlur o s = some s2 →
      s2.elClasses = s.elClasses ∧
      (s2 = s ∨ ∃ m, m ∈ s.matchList ∧
        (getValueFieldValue s).toLower = m.name.toLower ∧
        s2 = {s with fieldValue := m.name, fieldId := some m.id})) := by
  constructor
  · intro hnv
    constructor
    · rintro ⟨hm, hne⟩
      cases hml : s.matchList with
      | nil => exact absurd hml hne
      | cons m t =>
        refine ⟨m, by simp [getClosestMatch, hml], ?_⟩
        simp [handleBlur, hnv, hm, getClosestMatch, hml]
    · intro hnot
      by_cases hm : s.matched = true
      · have hml : s.matchList = [] := by
          by_contra hne
          exact hnot ⟨hm, hne⟩
        simp [handleBlur, hnv, hm, getClosestMatch, hml]
      · have hmf : s.matched = false := by
          revert hm; cases s.matched <;> simp
        simp [handleBlur, hnv, hmf]
  · intro hnv s2 hblur
    simp only [handleBlur, hnv, Bool.false_eq_true, if_false] at hblur
    cases hev : isMatchedExactlyEval s with
    | none => rw [hev] at hblur; simp at hblur
    | some b =>
      cases b with
      | false =>
        rw [hev] at hblur
        simp only [Option.some.injEq] at hblur
        subst hblur
        exact ⟨rfl, Or.inl rfl⟩
      | true =>
        rw [hev] at hblur
        obtain ⟨m, hgc, hlow⟩ := isMatchedExactlyEval_true hev
        rw [hgc] at hblur
        simp only [Option.some.injEq] at hblur
        subst hblur
        exact ⟨rfl, Or.inr ⟨m, getClosestMatch_mem hgc, hlow, rfl⟩⟩

/-- Concrete inputs for the C2 witness. -/
def c2OptsA : ACOptions := { noNewValues := true }

def c2StateA : ACState :=
  { fieldValue := "fo", matched := true, matchList := [⟨"Foo", "1"⟩] }

def c2OptsB : ACOptions := { noNewValues := false }

def c2StateB : ACState := { fieldValue := "xy", matched := false }

/-- C2 witness: both branches applied at concrete inputs. -/
theorem c2_handle_blur_states_witness :
    (∃ m, getClosestMatch c2StateA = some m ∧
      handleBlur c2OptsA c2StateA = some {c2StateA with
        fieldValue := m.name
        fieldId := some m.id
        elClasses := addCls c2StateA.elClasses c2OptsA.successClass}) ∧
    (c2StateB.elClasses = c2StateB.elClasses ∧
      (c2StateB = c2StateB ∨ ∃ m, m ∈ c2StateB.matchList ∧
        (getValueFieldValue c2StateB).toLower = m.name.toLower ∧
        c2StateB = {c2StateB with fieldValue := m.name, fieldId := some m.id})) :=
  ⟨((c2_handle_blur_states c2OptsA c2StateA).1 rfl).1 ⟨rfl, by decide⟩,
    (c2_handle_blur_states c2OptsB c2StateB).2 rfl c2StateB rfl⟩

/-! ## C9: loading is idempotent -/

/-- C9: setting an item into the loading state is idempotent: when the
item is already loading the handler changes nothing, and dispatching
`item.loading` twice gives the state reached after one dispatch. -/
theorem c9_item_loading_idempotent (s : TState) (id : String) (item : Item)
    (hi : getProp s.items id = some item) :
    (item.loading = true → dispatch s (.itemLoading id) = some s) ∧
    (∀ s2, dispatch s (.itemLoading id) = some s2 →
      dispatch s2 (.itemLoading id) = some s2) := by
  constructor
  · intro hl
    simp [dispatch, itemLoading, hi, hl]
  · intro s2 hd2
    simp only [dispatch, itemLoading, hi] at hd2
    by_cases hl : item.loading = true
    · rw [if_pos hl] at hd2
      simp only [Option.some.injEq] at hd2
      subst hd2
      simp [dispatch, itemLoading, hi, hl]
    · rw [if_neg hl] at hd2
      simp only [Option.some.injEq] at hd2
      subst hd2
      simp [dispatch, itemLoading, getProp_setProp]

/-- Concrete state for the C9 witness. -/
def c9State : TState := { items := [("1", { loading := true })] }

/-- C9 witness: a concrete already-loading item. -/
theorem c9_item_loading_idempotent_witness :
    dispatch c9State (.itemLoading "1") = some c9State :=
  (c9_item_loading_idempotent c9State "1" { loading := true } (by decide)).1 rfl

/-! ## Class-list membership helpers -/

theorem mem_addCls (l : List String) (c : String) : c ∈ addCls l c := by
  unfold addCls
  by_cases h : c ∈ l
  · rw [if_pos h]; exact h
  · rw [if_neg h]; simp

theorem mem_addCls_of_mem {l : List String} {x : String} (c : String)
    (h : x ∈ l) : x ∈ addCls l c := by
  unfold addCls
  by_cases hc : c ∈ l
  · rw [if_pos hc]; exact h
  · rw [if_neg hc]; exact List.mem_append_left _ h

theorem mem_prependCls (l : List String) (c : String) : c ∈ prependCls l c := by
  unfold prependCls
  by_cases h : c ∈ l
  · rw [if_pos h]; exact h
  · rw [if_neg h]; simp

theorem not_mem_removeCls (l : List String) (c : String) :
    c ∉ removeCls l c := by
  simp [removeCls]

theorem mem_foldl_addCls (ts : List String) :
    ∀ (l : List String) (x : String), x ∈ l ∨ x ∈ ts →
      x ∈ ts.foldl addCls l := by
  induction ts with
  | nil =>
    intro l x hx
    simpa using hx.resolve_right (by simp)
  | cons t ts ih =>
    intro l x hx
    simp only [List.foldl_cons]
    apply ih
    rcases hx with hl | hts
    · exact Or.inl (mem_addCls_of_mem t hl)
    · rcases List.mem_cons.mp hts with rfl | h2
      · exact Or.inl (mem_addCls l x)
      · exact Or.inr h2

theorem mem_addClsStr_of_mem {l : List String} {x : String} (s : String)
    (h : x ∈ l) : x ∈ addClsStr l s :=
  mem_foldl_addCls (splitCls s) l x (Or.inl h)

theorem mem_addClsStr_of_token {l : List String} {x : String} {s : String}
    (h : x ∈ splitCls s) : x ∈ addClsStr l s :=
  mem_foldl_addCls (splitCls s) l x (Or.inr h)

/-! ## C3: enable/disable events -/

theorem toggleEnabled_some (s : TState) (en : Bool) (X : String) (hl : Bool)
    (item : Item) (hi : getProp s.items X = some item) :
    ∃ s2, toggleEnabled s en X hl = some s2 := by
  simp only [toggleEnabled, hi]
  exact ⟨_, rfl⟩

theorem toggleEnabled_items_eq (s : TState) (en : Bool) (X : String)
    (hl : Bool) (item : Item) (s2 : TState)
    (hi : getProp s.items X = some item)
    (h : toggleEnabled s en X hl = some s2) :
    s2.items = setProp s.items X {item with disabled := !en, loading := false} := by
  simp only [toggleEnabled, hi, Option.some.injEq] at h
  subst h
  by_cases hload : item.loading = true <;> by_cases hhl : hl = true <;>
    simp [hload, hhl]

theorem toggleEnabled_dom_eq (s : TState) (en : Bool) (X : String) (hl : Bool)
    (item : Item) (d : Dom) (s2 : TState)
    (hi : getProp s.items X = some item) (hd : getProp s.dom X = some d)
    (h : toggleEnabled s en X hl = some s2) :
    getProp s2.dom X = some
      { classes :=
          (if en then
            removeCls (if hl then addCls d.classes "highlight-animation"
              else d.classes) "disabled"
          else
            addCls (if hl then addCls d.classes "highlight-animation"
              else d.classes) "disabled"),
        iconClasses :=
          (if "icon" ∈ d.iconClasses then
            (if en then
              prependCls (removeCls d.iconClasses (createIconClass item false))
                (createIconClass item true)
            else
              prependCls (removeCls d.iconClasses (createIconClass item true))
                (createIconClass item false))
          else d.iconClasses),
        titleHtml := d.titleHtml,
        linkHidden := (if item.loading then false else d.linkHidden),
        loaders := (if item.loading then 0 else d.loaders) } := by
  simp only [toggleEnabled, hi, Option.some.injEq] at h
  subst h
  by_cases hen : en = true <;> by_cases hload : item.loading = true <;>
    by_cases hhl : hl = true <;> by_cases hicon : "icon" ∈ d.iconClasses <;>
      simp [hen, hload, hhl, hicon, getProp_updProp, hd]

/-- C3: after the namespaced `item.disable` event for id X the stored
item's disabled flag is true and the element has the `disabled` class,
with the disabled icon class applied to the icon span (when the item is
rendered with one) and a pending loading state cleared; after
`item.enable` the flag is false and the `disabled` class is gone. -/
theorem c3_disable_enable_events (s : TState) (X : String) (item : Item)
    (d : Dom) (hl : Bool)
    (hi : getProp s.items X = some item) (hd : getProp s.dom X = some d) :
    (∃ s2 d2, dispatch s (.itemDisable X hl) = some s2 ∧
       getProp s2.items X = some {item with disabled := true, loading := false} ∧
       getProp s2.dom X = some d2 ∧
       "disabled" ∈ d2.classes ∧
       ("icon" ∈ d.iconClasses → createIconClass item false ∈ d2.iconClasses) ∧
       (item.loading = true → d2.loaders = 0 ∧ d2.linkHidden = false)) ∧
    (∃ s2 d2, dispatch s (.itemEnable X hl) = some s2 ∧
       getProp s2.items X = some {item with disabled := false, loading := false} ∧
       getProp s2.dom X = some d2 ∧
       "disabled" ∉ d2.classes) := by
  constructor
  · obtain ⟨s2, h2⟩ := toggleEnabled_some s false X hl item hi
    have hitems := toggleEnabled_items_eq s false X hl item s2 hi h2
    have hdom := toggleEnabled_dom_eq s false X hl item d s2 hi hd h2
    refine ⟨s2, _, h2, ?_, hdom, ?_, ?_, ?_⟩
    · rw [hitems]
      simpa using getProp_setProp s.items X {item with disabled := true, loading := false}
    · simp only
      exact mem_addCls _ "disabled"
    · intro hicon
      simp only [if_pos hicon]
      exact mem_prependCls _ _
    · intro hload
      simp [hload]
  · obtain ⟨s2, h2⟩ := toggleEnabled_some s true X hl item hi
    have hitems := toggleEnabled_items_eq s true X hl item s2 hi h2
    have hdom := toggleEnabled_dom_eq s true X hl item d s2 hi hd h2
    refine ⟨s2, _, h2, ?_, hdom, ?_⟩
    · rw [hitems]
      simpa using getProp_setProp s.items X {item with disabled := false, loading := false}
    · simp only [if_pos trivial]
      exact not_mem_removeCls _ "disabled"

/-- Concrete state for the C3 witness. -/
def c3State : TState :=
  { items := [("1", { icon := some "pen", loading := true })],
    dom := [("1", { classes := ["edit-toolbar-item"],
                    iconClasses := ["icon-pen", "icon"] })] }

/-- C3 witness: the theorem applied at a concrete rendered item. -/
theorem c3_disable_enable_events_witness :
    ∃ s2 d2, dispatch c3State (.itemDisable "1" true) = some s2 ∧
      getProp s2.items "1" =
        some { icon := some "pen", disabled := true, loading := false } ∧
      getProp s2.dom "1" = some d2 ∧ "disabled" ∈ d2.classes := by
  obtain ⟨⟨s2, d2, hdisp, hit, hdom, hcls, _, _⟩, _⟩ :=
    c3_disable_enable_events c3State "1"
      { icon := some "pen", loading := true }
      { classes := ["edit-toolbar-item"], iconClasses := ["icon-pen", "icon"] }
      true (by decide) (by decide)
  exact ⟨s2, d2, hdisp, hit, hdom, hcls⟩

/-! ## C4: selecting an item -/

/-- C4: a selectable item (no subitems, not loading, not disabled) either
has its callback invoked or gets the namespaced `item.select` event
emitted with the item as payload — exactly one of the two, decided by the
presence of a callback; items with subitems, in loading state or disabled
trigger neither, and the state is untouched. -/
theorem c4_select_item (s : TState) (cid : String) (item : Item)
    (hi : getProp s.items cid = some item)
    (hp : strTruthy item.parentId = true →
      (getProp s.items (jsStr item.parentId)).isSome = true) :
    (item.hasSubitems = true ∨ item.loading = true ∨ item.disabled = true →
      selectItem s cid = some (s, .noAction)) ∧
    (item.hasSubitems = false → item.loading = false → item.disabled = false →
      item.hasCallback = true →
      ∃ s2, selectItem s cid = some (s2, .callbackInvoked)) ∧
    (item.hasSubitems = false → item.loading = false → item.disabled = false →
      item.hasCallback = false →
      ∃ s2, selectItem s cid = some (s2,
        .selectEmitted (createEventName s.inst "item.select") item)) := by
  have freeCase : ∀ (hs : item.hasSubitems = false) (hlo : item.loading = false)
      (hdi : item.disabled = false) (act : SelAction),
      (act = (if item.hasCallback then SelAction.callbackInvoked
        else SelAction.selectEmitted (createEventName s.inst "item.select") item)) →
      ∃ s2, selectItem s cid = some (s2, act) := by
    intro hs hlo hdi act hact
    by_cases htr : strTruthy item.parentId = true
    · obtain ⟨p, hpp⟩ := Option.isSome_iff_exists.mp (hp htr)
      by_cases hty : p.typ = some "select"
      · refine ⟨changeMainListItem s (jsStr item.parentId) item, ?_⟩
        simp [selectItem, hi, hs, hlo, hdi, triggerSelectEvent, htr, hpp, hty, hact]
      · refine ⟨s, ?_⟩
        simp [selectItem, hi, hs, hlo, hdi, triggerSelectEvent, htr, hpp, hty, hact]
    · have htrf : strTruthy item.parentId = false := by
        revert htr; cases strTruthy item.parentId <;> simp
      refine ⟨s, ?_⟩
      simp [selectItem, hi, hs, hlo, hdi, triggerSelectEvent, htrf, hact]
  refine ⟨?_, ?_, ?_⟩
  · intro hblock
    rcases hblock with hb | hb | hb
    · simp [selectItem, hi, hb]
    · simp [selectItem, hi, hb]
    · by_cases hg : (item.hasSubitems || item.loading) = true
      · simp [selectItem, hi, hg]
      · simp only [Bool.or_eq_true, not_or] at hg
        simp [selectItem, hi, hg.1, hg.2, hb]
  · intro hs hlo hdi hcb
    exact freeCase hs hlo hdi _ (by rw [hcb]; rfl)
  · intro hs hlo hdi hcb
    exact freeCase hs hlo hdi _ (by rw [hcb]; rfl)

/-- Concrete state for the C4 witness. -/
def c4State : TState := { inst := "tb", items := [("7", {})] }

/-- C4 witness: a callback-less selectable item emits the namespaced
select event with the item as payload. -/
theorem c4_select_item_witness :
    ∃ s2, selectItem c4State "7" = some (s2,
      .selectEmitted (createEventName c4State.inst "item.select") {}) :=
  (c4_select_item c4State "7" {} (by decide) (by decide)).2.2 rfl rfl rfl rfl

/-! ## C7: parent update for select-type dropdowns -/

theorem changeMainListItem_getProp (s : TState) (pid : String) (item : Item)
    (d : Dom) (hd : getProp s.dom pid = some d) :
    ∃ d2, getProp (changeMainListItem s pid item).dom pid = some d2 ∧
      d2.titleHtml =
        (if strTruthy item.title then jsStr item.title else d.titleHtml) ∧
      d2.iconClasses =
        (if strTruthy item.icon then
          addClsStr d.iconClasses (createIconSupportClass item (!item.disabled))
        else d.iconClasses) ∧
      d2.classes = d.classes := by
  unfold changeMainListItem
  simp only [getProp_updProp, hd, Option.map_some']
  refine ⟨_, rfl, ?_, ?_, ?_⟩ <;>
    by_cases ht : strTruthy item.title = true <;>
      by_cases hic : strTruthy item.icon = true <;> simp [ht, hic]

/-- Concrete state for C7: a select-type parent whose dropdown child has
neither a title nor an icon. -/
def c7State : TState :=
  { inst := "",
    items := [("p", { id := some "p", typ := some "select", itemsLen := some 1 }),
              ("c", { id := some "c", parentId := some "p" })],
    dom := [("p", { classes := ["edit-toolbar-item"],
                    iconClasses := ["icon-old", "icon"], titleHtml := "Old" }),
            ("c", { titleHtml := "undefined" })] }

/-- C7 (counterexample): selecting a title-less child of a select-type
parent leaves the parent's title span unchanged (`"Old"`), so the span is
not updated to the child's title (which is absent, `none`): the update
only happens for truthy titles. -/
theorem c7_no_title_update_counterexample :
    (selectItem c7State "c").map
        (fun r => (getProp r.1.dom "p").map Dom.titleHtml) =
      some (some "Old") ∧
    ({ id := some "c", parentId := some "p" } : Item).title = none ∧
    ("Old" : String) ≠ jsStr ({ id := some "c", parentId := some "p" } : Item).title :=
  ⟨by decide, rfl, by decide⟩

/-- C7 (amended): selecting a selectable dropdown child whose stored
parent id refers to a select-type parent updates the parent element's
title span to the child's title when the child has a truthy title, and
adds the child's icon support classes to the parent's icon span (keeping
the existing ones) when the child has a truthy icon; children without a
truthy title leave the title span unchanged, children without a truthy
icon leave the icon span unchanged, and for parents of any other type (or
children without a parent) the rendered elements are left unchanged. -/
theorem c7_select_updates_select_parent (s : TState) (cid : String)
    (child : Item) (hc : getProp s.items cid = some child)
    (hsub : child.hasSubitems = false) (hload : child.loading = false)
    (hdis : child.disabled = false) :
    (strTruthy child.parentId = false →
      ∃ r, selectItem s cid = some r ∧ r.1.dom = s.dom) ∧
    (∀ parent, strTruthy child.parentId = true →
      getProp s.items (jsStr child.parentId) = some parent →
      (parent.typ ≠ some "select" →
        ∃ r, selectItem s cid = some r ∧ r.1.dom = s.dom) ∧
      (parent.typ = some "select" →
        ∀ d, getProp s.dom (jsStr child.parentId) = some d →
        ∃ r d2, selectItem s cid = some r ∧
          getProp r.1.dom (jsStr child.parentId) = some d2 ∧
          d2.titleHtml =
            (if strTruthy child.title then jsStr child.title else d.titleHtml) ∧
          (strTruthy child.icon = true →
            (∀ x ∈ d.iconClasses, x ∈ d2.iconClasses) ∧
            ∀ t ∈ splitCls (createIconSupportClass child (!child.disabled)),
              t ∈ d2.iconClasses) ∧
          (strTruthy child.icon = false → d2.iconClasses = d.iconClasses))) := by
  constructor
  · intro hpt
    refine ⟨(s, if child.hasCallback then SelAction.callbackInvoked
      else SelAction.selectEmitted (createEventName s.inst "item.select") child),
      ?_, rfl⟩
    simp [selectItem, hc, hsub, hload, hdis, triggerSelectEvent, hpt]
  · intro parent htr hpp
    constructor
    · intro hty
      refine ⟨(s, if child.hasCallback then SelAction.callbackInvoked
        else SelAction.selectEmitted (createEventName s.inst "item.select") child),
        ?_, rfl⟩
      simp [selectItem, hc, hsub, hload, hdis, triggerSelectEvent, htr, hpp, hty]
    · intro hty d hd
      obtain ⟨d2, hg2, hT, hI, _⟩ :=
        changeMainListItem_getProp s (jsStr child.parentId) child d hd
      refine ⟨(changeMainListItem s (jsStr child.parentId) child,
        if child.hasCallback then SelAction.callbackInvoked
        else SelAction.selectEmitted (createEventName s.inst "item.select") child),
        d2, ?_, hg2, hT, ?_, ?_⟩
      · simp [selectItem, hc, hsub, hload, hdis, triggerSelectEvent, htr, hpp, hty]
      · intro hic
        rw [hI, if_pos hic]
        exact ⟨fun x hx => mem_addClsStr_of_mem _ hx,
          fun t ht => mem_addClsStr_of_token ht⟩
      · intro hicf
        rw [hI, if_neg (by simp [hicf])]

/-- C7 witness: the amended theorem at the concrete `c7State`. -/
theorem c7_select_updates_select_parent_witness :
    ∃ r d2, selectItem c7State "c" = some r ∧
      getProp r.1.dom "p" = some d2 ∧ d2.titleHtml = "Old" := by
  have h := (c7_select_updates_select_parent c7State "c"
    { id := some "c", parentId := some "p" } (by decide) rfl rfl rfl).2
    { id := some "p", typ := some "select", itemsLen := some 1 }
    (by decide) (by decide)
  obtain ⟨r, d2, hsel, hg, hT, _, _⟩ := h.2 (by decide)
    { classes := ["edit-toolbar-item"], iconClasses := ["icon-old", "icon"],
      titleHtml := "Old" } (by decide)
  exact ⟨r, d2, hsel, hg, by simpa using hT⟩
